import Mathlib

/-!
Verification of the ESP32Weather build-time generators.

Two components are embedded here, faithfully translated from the Python
sources:

* `src/settings/defaultsettings.py` — the settings-schema-to-source-module
  compiler (`BuildFileStart`, `BuildSettings`, `BuildFileNext`,
  `BuildFileInit`, `GenerateDerfaultSettings`).
* `src/buildscript.py` — the version stamper (`update_versioning`).

Text is modelled as `List Char` (the character content of the Python
strings); file writing is modelled by accumulating the written text, and a
Python exception that escapes a function is modelled by an error value
paired with the text already written when it was raised.
-/

/-- Text is a list of characters (the content of a Python string). -/
abbrev Text := List Char

/-- A Python exception escaping the generator: `KeyError` from a missing
dict field, or `AttributeError` from calling `.items()` on a non-dict. -/
inductive PyErr where
  | keyError (field : Text)
  | attributeError
deriving DecidableEq, Repr

/-- One schema entry as a YAML sub-dictionary: each of the three fields the
generator reads may be present or absent. -/
structure Entry where
  type : Option Text
  value : Option Text
  size : Option Text
deriving DecidableEq, Repr, Inhabited

/-- The value produced by a successful `yaml.safe_load`: `null` (empty
document), a mapping from names to entries (Python dicts preserve document
order, hence a list of pairs), or some other non-mapping value (scalar,
sequence, ...). -/
inductive YVal where
  | null
  | mapping (m : List (Text × Entry))
  | other
deriving DecidableEq, Repr

/-- Outcome of `yaml.safe_load` on the schema document: a `yaml.YAMLError`
(malformed document) or a loaded value. -/
inductive ParseOutcome where
  | yamlError
  | ok (v : YVal)
deriving DecidableEq, Repr

/-- Nested newline-terminated lines: `linesText [l1, ..., ln] b` is the text
`l1\n...ln\n` followed by `b` (how every `write` of a newline-terminated
string is assembled here, keeping the text in its line structure). -/
def linesText : List Text → Text → Text
  | [], tail => tail
  | l :: ls, tail => l ++ '\n' :: linesText ls tail

/-- The lines of the banner written by `BuildFileStart` (each written in the
source as a `"...\n"` literal). -/
def bfsLines : List Text :=
  [
    ("/*******************************************************************************").data,
    (" * @file SettingsDefault.cpp").data,
    (" *").data,
    (" * @see Settings.h").data,
    (" *").data,
    (" * @author Alexy Torres Aurora Dugo").data,
    (" *").data,
    (" * @date 18/12/2025").data,
    (" *").data,
    (" * @version 1.0").data,
    (" *").data,
    (" * @brief Weather Station Firmware default setting repository.").data,
    (" *").data,
    (" * @details Weather Station Firmware default setting repository. This file ").data,
    (" * is auto-generated and contains the default settings used by the firmware.").data,
    (" *").data,
    (" * @copyright Alexy Torres Aurora Dugo").data,
    (" ******************************************************************************/").data,
    ("").data,
    ("/*******************************************************************************").data,
    (" * INCLUDES").data,
    (" ******************************************************************************/").data,
    ("#include <map>        /* Standard hashmap */").data,
    ("#include <cstdint>    /* Standard int types */").data,
    ("#include <Settings.h> /* Settings */").data,
    ("").data,
    ("/*******************************************************************************").data,
    (" * CONSTANTS").data,
    (" ******************************************************************************/").data,
    ("").data,
    ("/*******************************************************************************").data,
    (" * STRUCTURES AND TYPES").data,
    (" ******************************************************************************/").data,
    ("/* None */").data,
    ("").data,
    ("/*******************************************************************************").data,
    (" * MACROS").data,
    (" ******************************************************************************/").data,
    ("/* None */").data,
    ("").data,
    ("/*******************************************************************************").data,
    (" * STATIC FUNCTIONS DECLARATIONS").data,
    (" ******************************************************************************/").data,
    ("/* None */").data,
    ("").data,
    ("/*******************************************************************************").data,
    (" * GLOBAL VARIABLES").data,
    (" ******************************************************************************/").data,
    ("").data,
    ("/************************* Imported global variables **************************/").data,
    ("/* None */").data,
    ("").data,
    ("/************************* Exported global variables **************************/").data,
    ("/* None */").data,
    ("").data,
    ("/************************** Static global variables ***************************/").data
  ]

/-- The fixed file banner and framing written by `BuildFileStart`. -/
def BuildFileStart : Text := linesText bfsLines []

/-- The comment line written for a setting:
`"/** @brief Default setting for {} item. */\n".format(key)`. -/
def declComment (key : Text) : Text :=
  ("/** @brief Default setting for ").data ++ key ++ (" item. */").data ++ ['\n']

/-- The storage declaration written for a setting:
`"static const {} sk{} = {};\n".format(type, key, value)`. -/
def declLine (key typ v : Text) : Text :=
  ("static const ").data ++ typ ++ (" sk").data ++ key ++ (" = ").data ++ v ++
    (";").data ++ ['\n']

/-- The per-entry loop body of `BuildSettings`: for each `(key, value)` the
comment line is written, then `value["type"]` and `value["value"]` are read
(each raising `KeyError` if absent — the comment is already written, the
declaration is not) and the declaration line is written.  Returns the text
written and the first raised error, if any (the loop stops there). -/
def buildDecls : List (Text × Entry) → Text × Option PyErr
  | [] => ([], none)
  | (key, e) :: rest =>
    match e.type with
    | none => (declComment key, some (PyErr.keyError (("type").data)))
    | some t =>
      match e.value with
      | none => (declComment key, some (PyErr.keyError (("value").data)))
      | some v =>
        let p := buildDecls rest
        (declComment key ++ declLine key t v ++ p.1, p.2)

/-- `BuildSettings` after the schema file has been loaded: a `yaml.YAMLError`
is caught and printed and the function continues with the initial empty
dict `{}`; a non-dict loaded value makes `loaded.items()` raise
`AttributeError`; otherwise the declaration loop runs and, on success, a
final `"\n"` is written and the loaded settings are returned. -/
def BuildSettings : ParseOutcome → Text × Except PyErr (List (Text × Entry))
  | ParseOutcome.yamlError => (['\n'], Except.ok [])
  | ParseOutcome.ok YVal.null => ([], Except.error PyErr.attributeError)
  | ParseOutcome.ok YVal.other => ([], Except.error PyErr.attributeError)
  | ParseOutcome.ok (YVal.mapping m) =>
    let p := buildDecls m
    match p.2 with
    | some err => (p.1, Except.error err)
    | none => (p.1 ++ ['\n'], Except.ok m)

/-- The lines of the framing written by `BuildFileNext`. -/
def bfnLines : List Text :=
  [
    ("/*******************************************************************************").data,
    (" * FUNCTIONS").data,
    (" ******************************************************************************/").data,
    ("/* None */").data,
    ("").data,
    ("/*******************************************************************************").data,
    (" * CLASS METHODS").data,
    (" ******************************************************************************/").data
  ]

/-- The fixed framing written by `BuildFileNext`. -/
def BuildFileNext : Text := linesText bfnLines []

/-- Python `str.upper()` restricted to ASCII (schema keys are ASCII
identifiers). -/
def pyUpper (s : Text) : Text := s.map Char.toUpper

/-- The first write of the registration loop body:
`f"\tthis->_defaults.emplace(\n" + f"\t\t{'SETTING_' + key.upper()},\n" +
f"\t\tS_SettingField {{\n"`. -/
def regHeader (key : Text) : Text :=
  ("\tthis->_defaults.emplace(").data ++ ['\n'] ++
    ("\t\tSETTING_").data ++ pyUpper key ++ (",").data ++ ['\n'] ++
    ("\t\tS_SettingField \x7b").data ++ ['\n']

/-- The `.pValue` write: `addRef` starts `True` and is set to `False` when
`'*' in value["type"]`; with `addRef` the address-of form is written,
otherwise the bare storage value. -/
def pValueWrite (key typ : Text) : Text :=
  let addRef : Bool := !(typ.contains '*')
  if addRef then
    ("\t\t\t.pValue = (uint8_t*)&sk").data ++ key ++ (",").data ++ ['\n']
  else
    ("\t\t\t.pValue = (uint8_t*)sk").data ++ key ++ (",").data ++ ['\n']

/-- The closing write of the registration loop body:
`f"\t\t\t.fieldSize = {value["size"]}\n" + f"\t\t}}\n" + f"\t);\n"`. -/
def regTail (sz : Text) : Text :=
  ("\t\t\t.fieldSize = ").data ++ sz ++ ['\n'] ++
    ("\t\t\x7d").data ++ ['\n'] ++ ("\t);").data ++ ['\n']

/-- The registration loop of `BuildFileInit`: per entry, `value["type"]` is
read first (raising `KeyError` before anything of this entry is written),
then the header and `.pValue` lines are written, then `value["size"]` is
read (raising after those writes) and the closing lines are written. -/
def buildRegs : List (Text × Entry) → Text × Option PyErr
  | [] => ([], none)
  | (key, e) :: rest =>
    match e.type with
    | none => ([], some (PyErr.keyError (("type").data)))
    | some t =>
      match e.size with
      | none => (regHeader key ++ pValueWrite key t, some (PyErr.keyError (("size").data)))
      | some sz =>
        let p := buildRegs rest
        (regHeader key ++ pValueWrite key t ++ regTail sz ++ p.1, p.2)

/-- The opening write of `BuildFileInit`:
`"void Settings::InitializeDefault(void) noexcept {\n"`. -/
def initFnHeader : Text :=
  ("void Settings::InitializeDefault(void) noexcept \x7b").data ++ ['\n']

/-- `BuildFileInit`: writes the function header, runs the registration loop
and, when it completes, writes the closing `"}"`. -/
def BuildFileInit (settings : List (Text × Entry)) : Text × Option PyErr :=
  let p := buildRegs settings
  match p.2 with
  | some err => (initFnHeader ++ p.1, some err)
  | none => (initFnHeader ++ p.1 ++ ("\x7d").data, none)

/-- `GenerateDerfaultSettings` (source spelling kept): writes the banner,
runs `BuildSettings` on the parse outcome of the schema document, then
`BuildFileNext` and `BuildFileInit`.  The result is the full text written
to the output module and the error that escaped the run, if any. -/
def GenerateDerfaultSettings (pr : ParseOutcome) : Text × Option PyErr :=
  let s := BuildSettings pr
  match s.2 with
  | Except.error err => (BuildFileStart ++ s.1, some err)
  | Except.ok settings =>
    let i := BuildFileInit settings
    (BuildFileStart ++ s.1 ++ BuildFileNext ++ i.1, i.2)

/-! ## The version stamper (`src/buildscript.py`) -/

/-- `MAJOR = 0` in the build script. -/
def MAJOR : Int := 0

/-- `MINOR = 1` in the build script. -/
def MINOR : Int := 1

/-- A character Python's `int()` strips as whitespace (ASCII subset). -/
def isPySpace (c : Char) : Bool :=
  c = ' ' || c = '\t' || c = '\n' || c = '\x0d' || c = '\x0b' || c = '\x0c'

/-- Strip leading and trailing whitespace, as Python's `int()` does before
parsing. -/
def stripWS (s : Text) : Text :=
  ((s.dropWhile isPySpace).reverse.dropWhile isPySpace).reverse

/-- Digit-sequence tail of a Python integer literal: digits, with single
underscores allowed between digits.  `acc` is the value accumulated so
far. -/
def pyDigitsAux : Nat → Text → Option Nat
  | acc, [] => some acc
  | acc, c :: rest =>
    if c.isDigit then pyDigitsAux (acc * 10 + (c.toNat - 48)) rest
    else if c = '_' then
      match rest with
      | [] => none
      | d :: rest2 =>
        if d.isDigit then pyDigitsAux (acc * 10 + (d.toNat - 48)) rest2 else none
    else none

/-- Nonempty digit sequence of a Python integer literal. -/
def pyDigits : Text → Option Nat
  | [] => none
  | c :: rest => if c.isDigit then pyDigitsAux (c.toNat - 48) rest else none

/-- Python's `int(s)` in base 10 on the relevant inputs: surrounding
whitespace stripped, optional sign, nonempty digit sequence; `none` models
the `ValueError` raised otherwise. -/
def pyInt (s : Text) : Option Int :=
  match stripWS s with
  | [] => none
  | '+' :: rest => (pyDigits rest).map (fun n => (n : Int))
  | '-' :: rest => (pyDigits rest).map (fun n => -(n : Int))
  | t => (pyDigits t).map (fun n => (n : Int))

/-- `f.readline()`: the first line of the file content, including its
terminating newline when present. -/
def readlineChars : Text → Text
  | [] => []
  | c :: rest => if c = '\n' then [c] else c :: readlineChars rest

/-- `str(datetime.datetime.now())[:-7]`: the rendered timestamp with its
last seven characters (the `.ffffff` microseconds) sliced off. -/
def tsTrunc (now : Text) : Text := now.take (now.length - 7)

/-- The short version string `"{}.{}.{}".format(MAJOR, MINOR, build_no)`. -/
def versionShort (n : Int) : Text :=
  (toString MAJOR).data ++ (".").data ++ (toString MINOR).data ++ (".").data ++
    (toString n).data

/-- The full version string
`"{}.{}.{} {}".format(MAJOR, MINOR, build_no, str(datetime.datetime.now())[:-7])`. -/
def versionFull (n : Int) (ts : Text) : Text :=
  (toString MAJOR).data ++ (".").data ++ (toString MINOR).data ++ (".").data ++
    (toString n).data ++ (" ").data ++ ts

/-- The rendered `version.h` content (`hf` in the source): three guarded
defines carrying the build number, the full version and the short
version. -/
def versionHeader (n : Int) (ts : Text) : Text :=
  ("\n    #ifndef BUILD_NUMBER\n        #define BUILD_NUMBER \"").data ++
    (toString n).data ++
    ("\"\n    #endif\n    #ifndef VERSION\n        #define VERSION \"").data ++
    versionFull n ts ++
    ("\"\n    #endif\n    #ifndef VERSION_SHORT\n        #define VERSION_SHORT \"").data ++
    versionShort n ++
    ("\"\n    #endif\n    ").data

/-- What one run of `update_versioning` writes. -/
structure VersionResult where
  buildNo : Int
  counterFile : Text
  versionH : Text
deriving DecidableEq, Repr

/-- `update_versioning`: reads the counter file (`prior = none` models a
missing/unreadable file); inside the `try`, `int(f.readline()) + 1` is the
new build number, and the bare `except` turns any failure (missing file or
`ValueError` from `int`) into the fallback `build_no = 1`.  The new number
is then written back to the counter file unconditionally and the version
header is rendered with the timestamp `now`. -/
def update_versioning (prior : Option Text) (now : Text) : VersionResult :=
  let n : Int :=
    match prior with
    | none => 1
    | some content =>
      match pyInt (readlineChars content) with
      | some v => v + 1
      | none => 1
  { buildNo := n
    counterFile := (toString n).data
    versionH := versionHeader n (tsTrunc now) }

/-- One build-script run (`is_pio_build()` true): the settings module is
generated first, then — when generation did not raise — the versioning is
updated.  `counter` and `now` are the counter-file content and the wall
clock, the inputs that vary between runs on an unchanged schema. -/
structure BuildRun where
  moduleText : Text
  moduleErr : Option PyErr
  versioning : Option VersionResult
deriving DecidableEq, Repr

/-- The build-script pipeline on one invocation. -/
def buildscriptRun (pr : ParseOutcome) (counter : Option Text) (now : Text) :
    BuildRun :=
  let g := GenerateDerfaultSettings pr
  { moduleText := g.1
    moduleErr := g.2
    versioning := match g.2 with
      | some _ => none
      | none => some (update_versioning counter now) }

/-! ## Text analysis: lines, markers, substrings -/

/-- Split a text at newline characters (the lines of the emitted module; a
text with `n` newlines has `n + 1` lines). -/
def splitLines : Text → List Text
  | [] => [[]]
  | c :: rest =>
    if c = '\n' then [] :: splitLines rest
    else
      match splitLines rest with
      | [] => [[c]]
      | l :: ls => (c :: l) :: ls

/-- `leadsWith p s` is true when `p` is an initial segment of `s`. -/
def leadsWith : Text → Text → Bool
  | [], _ => true
  | _ :: _, [] => false
  | x :: xs, y :: ys => (x == y) && leadsWith xs ys

/-- Number of lines of `s` that start with `marker`. -/
def lineCount (marker s : Text) : Nat :=
  (splitLines s).countP (fun l => leadsWith marker l)

/-- `containsSub pat s` is true when `pat` occurs contiguously in `s`. -/
def containsSub (pat : Text) : Text → Bool
  | [] => leadsWith pat []
  | c :: rest => leadsWith pat (c :: rest) || containsSub pat rest

/-- Marker of an emitted storage declaration line. -/
def declMarker : Text := ("static const ").data

/-- Marker of an emitted registration statement. -/
def regMarker : Text := ("\tthis->_defaults.emplace(").data

/-- A schema entry supplies all three fields the generator reads. -/
def wfSchema (m : List (Text × Entry)) : Prop :=
  ∀ p ∈ m, p.2.type.isSome = true ∧ p.2.value.isSome = true ∧ p.2.size.isSome = true

/-- No newline characters inside the schema's names and opaque fragments
(one YAML scalar produces one emitted line). -/
def noNLSchema (m : List (Text × Entry)) : Prop :=
  ∀ p ∈ m, '\n' ∉ p.1 ∧ '\n' ∉ p.2.type.getD [] ∧ '\n' ∉ p.2.value.getD [] ∧
    '\n' ∉ p.2.size.getD []

/-- Everything `BuildSettings` writes for one well-formed entry. -/
def declWrite (p : Text × Entry) : Text :=
  declComment p.1 ++ declLine p.1 (p.2.type.getD []) (p.2.value.getD [])

/-- Everything the `BuildFileInit` loop writes for one well-formed entry. -/
def regWrite (p : Text × Entry) : Text :=
  regHeader p.1 ++ pValueWrite p.1 (p.2.type.getD []) ++ regTail (p.2.size.getD [])

/-- The `.pValue` line without its newline terminator. -/
def pValueLine (key typ : Text) : Text :=
  if !(typ.contains '*') then
    ("\t\t\t.pValue = (uint8_t*)&sk").data ++ key ++ (",").data
  else
    ("\t\t\t.pValue = (uint8_t*)sk").data ++ key ++ (",").data

/-- Address expression of a registration descriptor as the specification
words it: for a type containing no pointer marker, address-of the generated
storage; for a pointer type, the storage's value itself. -/
def specAddressExpr (name typ : Text) : Text :=
  if typ.contains '*' then ("(uint8_t*)sk").data ++ name
  else ("(uint8_t*)&sk").data ++ name

/-! ## The lines of the emitted fragments -/

/-- The comment line of a declaration fragment, without its newline. -/
def declCommentLine (k : Text) : Text :=
  ("/** @brief Default setting for ").data ++ k ++ (" item. */").data

/-- The storage declaration line, without its newline. -/
def declLineBody (k t v : Text) : Text :=
  ("static const ").data ++ t ++ (" sk").data ++ k ++ (" = ").data ++ v ++ (";").data

/-- The `SETTING_...` line of a registration fragment, without its newline. -/
def regSettingLine (k : Text) : Text :=
  ("\t\tSETTING_").data ++ pyUpper k ++ (",").data

/-- The `.fieldSize` line of a registration fragment, without its newline. -/
def regFieldSizeLine (sz : Text) : Text :=
  ("\t\t\t.fieldSize = ").data ++ sz

/-- The assembled module on a well-formed schema: banner, one declaration
write per entry, the blank-line write, the function framing, the function
header, one registration write per entry and the closing brace. -/
def assembledModule (m : List (Text × Entry)) : Text :=
  BuildFileStart ++ (m.map declWrite).flatten ++ ['\n'] ++ BuildFileNext ++
    initFnHeader ++ (m.map regWrite).flatten ++ ("\x7d").data

/-- The two lines of a declaration fragment. -/
def declLinesOf (p : Text × Entry) : List Text :=
  [declCommentLine p.1, declLineBody p.1 (p.2.type.getD []) (p.2.value.getD [])]

/-- The seven lines of a registration fragment. -/
def regLinesOf (p : Text × Entry) : List Text :=
  [regMarker, regSettingLine p.1, ("\t\tS_SettingField \x7b").data,
    pValueLine p.1 (p.2.type.getD []), regFieldSizeLine (p.2.size.getD []),
    ("\t\t\x7d").data, ("\t);").data]

/-! ## Concrete schemas used as witnesses -/

/-- The specification's scenario entry:
`temp: {type: "float", value: "21.5", size: "sizeof(float)"}`. -/
def tempEntry : Entry :=
  { type := some (("float").data)
    value := some (("21.5").data)
    size := some (("sizeof(float)").data) }

/-- The specification's scenario schema `{temp: ...}`. -/
def tempSchema : List (Text × Entry) := [((("temp").data), tempEntry)]

/-- The specification's reference-typed scenario entry:
`name: {type: "char*", value: "\"station1\"", size: "9"}`. -/
def nameEntry : Entry :=
  { type := some (("char*").data)
    value := some (("\"station1\"").data)
    size := some (("9").data) }

/-- Schema holding the reference-typed entry. -/
def nameSchema : List (Text × Entry) := [((("name").data), nameEntry)]

/-- An entry lacking its `size` field. -/
def noSizeEntry : Entry :=
  { type := some (("int").data), value := some (("0").data), size := none }

/-- Schema holding the entry lacking `size`. -/
def noSizeSchema : List (Text × Entry) := [((("a").data), noSizeEntry)]

/-! ## Basic lemmas about the text machinery -/

theorem toUpper_eq_newline {c : Char} (h : Char.toUpper c = '\n') : c = '\n' := by
  unfold Char.toUpper at h
  simp only at h
  by_cases hc : c.toNat ≥ 97 ∧ c.toNat ≤ 122
  · exfalso
    rw [if_pos hc] at h
    have h2 := congrArg Char.toNat h
    have hvv : (c.toNat - 32).isValidChar := Or.inl (by omega)
    have hv : (Char.ofNat (c.toNat - 32)).toNat = c.toNat - 32 := by
      simp only [Char.ofNat]
      rw [dif_pos hvv]
      simp only [Char.ofNatAux, Char.toNat, UInt32.toNat]
      simp [BitVec.toNat_ofNatLt]
    rw [hv] at h2
    have h3 : ('\n').toNat = 10 := by decide
    rw [h3] at h2
    omega
  · rw [if_neg hc] at h
    exact h

theorem pyUpper_no_newline {s : Text} (h : '\n' ∉ s) : '\n' ∉ pyUpper s := by
  intro hmem
  simp only [pyUpper, List.mem_map] at hmem
  obtain ⟨c, hc, heq⟩ := hmem
  exact h (toUpper_eq_newline heq ▸ hc)

theorem splitLines_ne_nil (s : Text) : splitLines s ≠ [] := by
  induction s with
  | nil => simp [splitLines]
  | cons c rest ih =>
    simp only [splitLines]
    by_cases h : c = '\n'
    · simp [h]
    · rw [if_neg h]
      rcases hq : splitLines rest with _ | ⟨l, ls⟩
      · simp
      · simp

theorem splitLines_append_nl (a b : Text) :
    splitLines (a ++ '\n' :: b) = splitLines a ++ splitLines b := by
  induction a with
  | nil => rfl
  | cons c a ih =>
    by_cases h : c = '\n'
    · subst h
      show splitLines ('\n' :: (a ++ '\n' :: b)) = splitLines ('\n' :: a) ++ splitLines b
      rw [show splitLines ('\n' :: (a ++ '\n' :: b)) = [] :: splitLines (a ++ '\n' :: b)
            from rfl,
          show splitLines ('\n' :: a) = [] :: splitLines a from rfl, ih]
      rfl
    · have e1 : splitLines (c :: (a ++ '\n' :: b)) =
          match splitLines (a ++ '\n' :: b) with
          | [] => [[c]]
          | l :: ls => (c :: l) :: ls := by
        simp only [splitLines, if_neg h]
      have e2 : splitLines (c :: a) =
          match splitLines a with
          | [] => [[c]]
          | l :: ls => (c :: l) :: ls := by
        simp only [splitLines, if_neg h]
      rw [List.cons_append, e1, e2, ih]
      rcases hq : splitLines a with _ | ⟨l, ls⟩
      · exact absurd hq (splitLines_ne_nil a)
      · simp [hq]

theorem splitLines_noNL {a : Text} (h : '\n' ∉ a) : splitLines a = [a] := by
  induction a with
  | nil => rfl
  | cons c a ih =>
    have hc : ¬ c = '\n' := fun hh => h (hh ▸ List.mem_cons_self c a)
    have ha : '\n' ∉ a := fun hh => h (List.mem_cons_of_mem c hh)
    simp only [splitLines, if_neg hc, ih ha]

theorem leadsWith_append_self (p s : Text) : leadsWith p (p ++ s) = true := by
  induction p with
  | nil => rfl
  | cons x xs ih => simp [leadsWith, ih]

theorem lineCount_append_nl (m a b : Text) :
    lineCount m (a ++ '\n' :: b) = lineCount m a + lineCount m b := by
  simp [lineCount, splitLines_append_nl, List.countP_append]

theorem lineCount_noNL {a : Text} (m : Text) (h : '\n' ∉ a) :
    lineCount m a = if leadsWith m a then 1 else 0 := by
  simp only [lineCount, splitLines_noNL h, List.countP_cons, List.countP_nil]
  by_cases hp : leadsWith m a <;> simp [hp]

theorem leadsWith_iff (p s : Text) : leadsWith p s = true ↔ ∃ t, s = p ++ t := by
  induction p generalizing s with
  | nil => simp [leadsWith]
  | cons x xs ih =>
    cases s with
    | nil => simp [leadsWith]
    | cons y ys =>
      simp only [leadsWith, Bool.and_eq_true, beq_iff_eq, ih, List.cons_append,
        List.cons.injEq]
      constructor
      · rintro ⟨hxy, t, ht⟩
        exact ⟨t, hxy.symm, ht⟩
      · rintro ⟨t, hxy, ht⟩
        exact ⟨hxy.symm, t, ht⟩

theorem containsSub_iff (pat s : Text) :
    containsSub pat s = true ↔ ∃ x y, s = x ++ pat ++ y := by
  induction s with
  | nil =>
    simp only [containsSub, leadsWith_iff]
    constructor
    · rintro ⟨t, ht⟩
      exact ⟨[], t, ht⟩
    · rintro ⟨x, y, hxy⟩
      rcases List.append_eq_nil.mp hxy.symm with ⟨h1, h2⟩
      rcases List.append_eq_nil.mp h1 with ⟨h3, h4⟩
      exact ⟨y, by simp [h4, h2]⟩
  | cons c rest ih =>
    simp only [containsSub, Bool.or_eq_true, leadsWith_iff, ih]
    constructor
    · rintro (⟨t, ht⟩ | ⟨x, y, hxy⟩)
      · exact ⟨[], t, by simp [ht]⟩
      · exact ⟨c :: x, y, by simp [hxy]⟩
    · rintro ⟨x, y, hxy⟩
      cases x with
      | nil => exact Or.inl ⟨y, by simpa using hxy⟩
      | cons x0 xs =>
        right
        refine ⟨xs, y, ?_⟩
        simp only [List.cons_append, List.cons.injEq] at hxy
        exact hxy.2

theorem pValueWrite_split (k t : Text) :
    pValueWrite k t = pValueLine k t ++ ['\n'] := by
  simp only [pValueWrite, pValueLine]
  cases ht : t.contains '*' <;> simp [ht]

theorem noNL_declCommentLine {k : Text} (hk : '\n' ∉ k) : '\n' ∉ declCommentLine k := by
  have h1 : '\n' ∉ ("/** @brief Default setting for ").data := by decide
  have h2 : '\n' ∉ (" item. */").data := by decide
  simp only [declCommentLine, List.mem_append, not_or]
  exact ⟨⟨h1, hk⟩, h2⟩

theorem noNL_declLineBody {k t v : Text} (hk : '\n' ∉ k) (ht : '\n' ∉ t)
    (hv : '\n' ∉ v) : '\n' ∉ declLineBody k t v := by
  have h1 : '\n' ∉ ("static const ").data := by decide
  have h2 : '\n' ∉ (" sk").data := by decide
  have h3 : '\n' ∉ (" = ").data := by decide
  have h4 : '\n' ∉ (";").data := by decide
  simp only [declLineBody, List.mem_append, not_or]
  exact ⟨⟨⟨⟨⟨⟨h1, ht⟩, h2⟩, hk⟩, h3⟩, hv⟩, h4⟩

theorem noNL_regSettingLine {k : Text} (hk : '\n' ∉ k) : '\n' ∉ regSettingLine k := by
  have h1 : '\n' ∉ ("\t\tSETTING_").data := by decide
  have h2 : '\n' ∉ (",").data := by decide
  simp only [regSettingLine, List.mem_append, not_or]
  exact ⟨⟨h1, pyUpper_no_newline hk⟩, h2⟩

theorem noNL_regFieldSizeLine {sz : Text} (hsz : '\n' ∉ sz) :
    '\n' ∉ regFieldSizeLine sz := by
  have h1 : '\n' ∉ ("\t\t\t.fieldSize = ").data := by decide
  simp only [regFieldSizeLine, List.mem_append, not_or]
  exact ⟨h1, hsz⟩

theorem noNL_pValueLine {k : Text} (t : Text) (hk : '\n' ∉ k) :
    '\n' ∉ pValueLine k t := by
  have h1 : '\n' ∉ ("\t\t\t.pValue = (uint8_t*)&sk").data := by decide
  have h2 : '\n' ∉ ("\t\t\t.pValue = (uint8_t*)sk").data := by decide
  have h3 : '\n' ∉ (",").data := by decide
  simp only [pValueLine]
  cases hc : !(t.contains '*')
  · rw [if_neg (by simp [hc])]
    simp only [List.mem_append, not_or]
    exact ⟨⟨h2, hk⟩, h3⟩
  · rw [if_pos (by simp [hc])]
    simp only [List.mem_append, not_or]
    exact ⟨⟨h1, hk⟩, h3⟩

theorem splitLines_declWrite (k t v X : Text) (hk : '\n' ∉ k) (ht : '\n' ∉ t)
    (hv : '\n' ∉ v) :
    splitLines (declComment k ++ declLine k t v ++ X) =
      declCommentLine k :: declLineBody k t v :: splitLines X := by
  have key : declComment k ++ declLine k t v ++ X =
      declCommentLine k ++ '\n' :: (declLineBody k t v ++ '\n' :: X) := by
    simp [declComment, declLine, declCommentLine, declLineBody, List.append_assoc]
  rw [key, splitLines_append_nl, splitLines_append_nl,
    splitLines_noNL (noNL_declCommentLine hk),
    splitLines_noNL (noNL_declLineBody hk ht hv)]
  rfl

theorem splitLines_regWrite (k t sz X : Text) (hk : '\n' ∉ k) (hsz : '\n' ∉ sz) :
    splitLines (regHeader k ++ pValueWrite k t ++ regTail sz ++ X) =
      regMarker :: regSettingLine k :: ("\t\tS_SettingField \x7b").data ::
        pValueLine k t :: regFieldSizeLine sz :: ("\t\t\x7d").data ::
        ("\t);").data :: splitLines X := by
  have key : regHeader k ++ pValueWrite k t ++ regTail sz ++ X =
      regMarker ++ '\n' :: (regSettingLine k ++ '\n' ::
        (("\t\tS_SettingField \x7b").data ++ '\n' :: (pValueLine k t ++ '\n' ::
          (regFieldSizeLine sz ++ '\n' :: (("\t\t\x7d").data ++ '\n' ::
            (("\t);").data ++ '\n' :: X)))))) := by
    simp [regHeader, pValueWrite_split, regTail, regMarker, regSettingLine,
      regFieldSizeLine, List.append_assoc]
  rw [key, splitLines_append_nl, splitLines_append_nl, splitLines_append_nl,
    splitLines_append_nl, splitLines_append_nl, splitLines_append_nl,
    splitLines_append_nl,
    splitLines_noNL (show ('\n' : Char) ∉ regMarker by decide),
    splitLines_noNL (noNL_regSettingLine hk),
    splitLines_noNL (show ('\n' : Char) ∉ ("\t\tS_SettingField \x7b").data by decide),
    splitLines_noNL (noNL_pValueLine t hk),
    splitLines_noNL (noNL_regFieldSizeLine hsz),
    splitLines_noNL (show ('\n' : Char) ∉ ("\t\t\x7d").data by decide),
    splitLines_noNL (show ('\n' : Char) ∉ ("\t);").data by decide)]
  rfl

/-! ## Which lines carry which marker -/

theorem lw_dm_comment (k : Text) : leadsWith declMarker (declCommentLine k) = false := rfl

theorem lw_dm_decl (k t v : Text) : leadsWith declMarker (declLineBody k t v) = true := rfl

theorem lw_rm_comment (k : Text) : leadsWith regMarker (declCommentLine k) = false := rfl

theorem lw_rm_decl (k t v : Text) : leadsWith regMarker (declLineBody k t v) = false := rfl

theorem lw_rm_self : leadsWith regMarker regMarker = true := by decide

theorem lw_dm_regHeader : leadsWith declMarker regMarker = false := by decide

theorem lw_dm_setting (k : Text) : leadsWith declMarker (regSettingLine k) = false := rfl

theorem lw_rm_setting (k : Text) : leadsWith regMarker (regSettingLine k) = false := rfl

theorem lw_dm_fieldSize (sz : Text) : leadsWith declMarker (regFieldSizeLine sz) = false := rfl

theorem lw_rm_fieldSize (sz : Text) : leadsWith regMarker (regFieldSizeLine sz) = false := rfl

theorem lw_dm_pValue (k t : Text) : leadsWith declMarker (pValueLine k t) = false := by
  simp only [pValueLine]
  cases hc : !(t.contains '*')
  · rw [if_neg (by simp [hc])]
    rfl
  · rw [if_pos (by simp [hc])]
    rfl

theorem lw_rm_pValue (k t : Text) : leadsWith regMarker (pValueLine k t) = false := by
  simp only [pValueLine]
  cases hc : !(t.contains '*')
  · rw [if_neg (by simp [hc])]
    rfl
  · rw [if_pos (by simp [hc])]
    rfl

/-! ## Counting the emitted declarations and registrations -/

theorem lineCount_declJoin (m : List (Text × Entry)) (hnl : noNLSchema m) (b : Text) :
    lineCount declMarker ((m.map declWrite).flatten ++ b) =
        m.length + lineCount declMarker b ∧
      lineCount regMarker ((m.map declWrite).flatten ++ b) = lineCount regMarker b := by
  induction m with
  | nil => simp
  | cons p m ih =>
    obtain ⟨hk, ht, hv, _⟩ := hnl p (List.mem_cons_self p m)
    have hm : noNLSchema m := fun q hq => hnl q (List.mem_cons_of_mem p hq)
    have key : (((p :: m).map declWrite).flatten ++ b) =
        declComment p.1 ++ declLine p.1 (p.2.type.getD []) (p.2.value.getD []) ++
          ((m.map declWrite).flatten ++ b) := by
      simp [declWrite, List.append_assoc]
    rw [key]
    have ⟨ih1, ih2⟩ := ih hm
    simp only [lineCount] at ih1 ih2 ⊢
    rw [splitLines_declWrite _ _ _ _ hk ht hv]
    simp only [List.countP_cons, lw_dm_comment, lw_dm_decl, lw_rm_comment,
      lw_rm_decl, ih1, ih2, List.length_cons, Bool.false_eq_true, if_false,
      if_true]
    omega

theorem lineCount_regJoin (m : List (Text × Entry)) (hnl : noNLSchema m) (b : Text) :
    lineCount regMarker ((m.map regWrite).flatten ++ b) =
        m.length + lineCount regMarker b ∧
      lineCount declMarker ((m.map regWrite).flatten ++ b) = lineCount declMarker b := by
  induction m with
  | nil => simp
  | cons p m ih =>
    obtain ⟨hk, _, _, hs⟩ := hnl p (List.mem_cons_self p m)
    have hm : noNLSchema m := fun q hq => hnl q (List.mem_cons_of_mem p hq)
    have key : (((p :: m).map regWrite).flatten ++ b) =
        regHeader p.1 ++ pValueWrite p.1 (p.2.type.getD []) ++
          regTail (p.2.size.getD []) ++ ((m.map regWrite).flatten ++ b) := by
      simp [regWrite, List.append_assoc]
    rw [key]
    have ⟨ih1, ih2⟩ := ih hm
    simp only [lineCount] at ih1 ih2 ⊢
    rw [splitLines_regWrite _ _ _ _ hk hs]
    simp only [List.countP_cons, lw_rm_self, lw_dm_regHeader, lw_dm_setting,
      lw_rm_setting, lw_dm_pValue, lw_rm_pValue, lw_dm_fieldSize, lw_rm_fieldSize,
      ih1, ih2, List.length_cons]
    have e1 : leadsWith regMarker (("\t\tS_SettingField \x7b").data) = false := by decide
    have e2 : leadsWith declMarker (("\t\tS_SettingField \x7b").data) = false := by decide
    have e3 : leadsWith regMarker (("\t\t\x7d").data) = false := by decide
    have e4 : leadsWith declMarker (("\t\t\x7d").data) = false := by decide
    have e5 : leadsWith regMarker (("\t);").data) = false := by decide
    have e6 : leadsWith declMarker (("\t);").data) = false := by decide
    rw [e1, e2, e3, e4, e5, e6]
    simp only [Bool.false_eq_true, if_false, if_true]
    omega

/-! ## Decomposition of the generator on well-formed schemas -/

theorem buildDecls_wf (m : List (Text × Entry)) (hwf : wfSchema m) :
    buildDecls m = ((m.map declWrite).flatten, none) := by
  induction m with
  | nil => rfl
  | cons p m ih =>
    rcases p with ⟨k, e⟩
    obtain ⟨h1, h2, _⟩ := hwf (k, e) (List.mem_cons_self _ m)
    obtain ⟨t, ht⟩ := Option.isSome_iff_exists.mp h1
    obtain ⟨v, hv⟩ := Option.isSome_iff_exists.mp h2
    have ht2 : e.type = some t := ht
    have hv2 : e.value = some v := hv
    have hm : wfSchema m := fun q hq => hwf q (List.mem_cons_of_mem _ hq)
    simp only [buildDecls, ht2, hv2, ih hm, List.map_cons, List.flatten_cons]
    simp [declWrite, ht2, hv2, List.append_assoc]

theorem buildRegs_wf (m : List (Text × Entry)) (hwf : wfSchema m) :
    buildRegs m = ((m.map regWrite).flatten, none) := by
  induction m with
  | nil => rfl
  | cons p m ih =>
    rcases p with ⟨k, e⟩
    obtain ⟨h1, _, h3⟩ := hwf (k, e) (List.mem_cons_self _ m)
    obtain ⟨t, ht⟩ := Option.isSome_iff_exists.mp h1
    obtain ⟨sz, hs⟩ := Option.isSome_iff_exists.mp h3
    have ht2 : e.type = some t := ht
    have hs2 : e.size = some sz := hs
    have hm : wfSchema m := fun q hq => hwf q (List.mem_cons_of_mem _ hq)
    simp only [buildRegs, ht2, hs2, ih hm, List.map_cons, List.flatten_cons]
    simp [regWrite, ht2, hs2, List.append_assoc]

theorem generate_wf (m : List (Text × Entry)) (hwf : wfSchema m) :
    GenerateDerfaultSettings (ParseOutcome.ok (YVal.mapping m)) =
      (assembledModule m, none) := by
  simp only [GenerateDerfaultSettings, BuildSettings, buildDecls_wf m hwf,
    BuildFileInit, buildRegs_wf m hwf, assembledModule]
  simp [List.append_assoc]

/-! ## Line structure of the assembled module -/

theorem linesText_append (ls : List Text) (b c : Text) :
    linesText ls b ++ c = linesText ls (b ++ c) := by
  induction ls with
  | nil => rfl
  | cons l ls ih => simp [linesText, ih, List.append_assoc]

theorem splitLines_linesText (ls : List Text) (hnl : ∀ l ∈ ls, '\n' ∉ l)
    (b : Text) : splitLines (linesText ls b) = ls ++ splitLines b := by
  induction ls with
  | nil => rfl
  | cons l ls ih =>
    have h1 := hnl l (List.mem_cons_self _ _)
    have h2 : ∀ x ∈ ls, '\n' ∉ x := fun x hx => hnl x (List.mem_cons_of_mem _ hx)
    simp only [linesText, splitLines_append_nl, splitLines_noNL h1, ih h2]
    rfl

theorem lineCount_linesText (mk : Text) (ls : List Text)
    (hnl : ∀ l ∈ ls, '\n' ∉ l) (b : Text) :
    lineCount mk (linesText ls b) =
      ls.countP (fun l => leadsWith mk l) + lineCount mk b := by
  simp [lineCount, splitLines_linesText ls hnl b, List.countP_append]

theorem lineCount_cons_nl (mk b : Text) :
    lineCount mk ('\n' :: b) = lineCount mk ([] : Text) + lineCount mk b :=
  lineCount_append_nl mk [] b

theorem splitLines_declFlatten (m : List (Text × Entry)) (hnl : noNLSchema m)
    (b : Text) :
    splitLines ((m.map declWrite).flatten ++ b) =
      (m.map declLinesOf).flatten ++ splitLines b := by
  induction m with
  | nil => simp
  | cons p m ih =>
    obtain ⟨hk, ht, hv, _⟩ := hnl p (List.mem_cons_self p m)
    have hm : noNLSchema m := fun q hq => hnl q (List.mem_cons_of_mem p hq)
    have key : (((p :: m).map declWrite).flatten ++ b) =
        declComment p.1 ++ declLine p.1 (p.2.type.getD []) (p.2.value.getD []) ++
          ((m.map declWrite).flatten ++ b) := by
      simp [declWrite, List.append_assoc]
    rw [key, splitLines_declWrite _ _ _ _ hk ht hv, ih hm]
    simp [declLinesOf]

theorem splitLines_regFlatten (m : List (Text × Entry)) (hnl : noNLSchema m)
    (b : Text) :
    splitLines ((m.map regWrite).flatten ++ b) =
      (m.map regLinesOf).flatten ++ splitLines b := by
  induction m with
  | nil => simp
  | cons p m ih =>
    obtain ⟨hk, _, _, hs⟩ := hnl p (List.mem_cons_self p m)
    have hm : noNLSchema m := fun q hq => hnl q (List.mem_cons_of_mem p hq)
    have key : (((p :: m).map regWrite).flatten ++ b) =
        regHeader p.1 ++ pValueWrite p.1 (p.2.type.getD []) ++
          regTail (p.2.size.getD []) ++ ((m.map regWrite).flatten ++ b) := by
      simp [regWrite, List.append_assoc]
    rw [key, splitLines_regWrite _ _ _ _ hk hs, ih hm]
    simp [regLinesOf]

theorem assembled_shape (m : List (Text × Entry)) :
    assembledModule m =
      linesText bfsLines ((m.map declWrite).flatten ++ '\n' ::
        linesText bfnLines
          (("void Settings::InitializeDefault(void) noexcept \x7b").data ++ '\n' ::
            ((m.map regWrite).flatten ++ ("\x7d").data))) := by
  simp [assembledModule, BuildFileStart, BuildFileNext, initFnHeader,
    linesText_append, List.append_assoc]

theorem splitLines_assembled (m : List (Text × Entry)) (hnl : noNLSchema m) :
    splitLines (assembledModule m) =
      bfsLines ++ ((m.map declLinesOf).flatten ++ ([] :: (bfnLines ++
        (("void Settings::InitializeDefault(void) noexcept \x7b").data ::
          ((m.map regLinesOf).flatten ++ [("\x7d").data]))))) := by
  rw [assembled_shape, splitLines_linesText _ (by decide),
    splitLines_declFlatten m hnl,
    show ∀ X : Text, splitLines ('\n' :: X) = [] :: splitLines X from fun X => rfl,
    splitLines_linesText _ (by decide), splitLines_append_nl,
    splitLines_noNL
      (show ('\n' : Char) ∉
        ("void Settings::InitializeDefault(void) noexcept \x7b").data by decide),
    splitLines_regFlatten m hnl,
    splitLines_noNL (show ('\n' : Char) ∉ ("\x7d").data by decide)]
  simp

theorem lineCount_assembled (m : List (Text × Entry)) (hnl : noNLSchema m) :
    lineCount declMarker (assembledModule m) = m.length ∧
      lineCount regMarker (assembledModule m) = m.length := by
  constructor
  · rw [assembled_shape, lineCount_linesText _ _ (by decide),
      (lineCount_declJoin m hnl _).1, lineCount_cons_nl,
      lineCount_linesText _ _ (by decide), lineCount_append_nl,
      (lineCount_regJoin m hnl _).2]
    have c1 : bfsLines.countP (fun l => leadsWith declMarker l) = 0 := by decide
    have c2 : lineCount declMarker ([] : Text) = 0 := by decide
    have c3 : bfnLines.countP (fun l => leadsWith declMarker l) = 0 := by decide
    have c4 : lineCount declMarker
        (("void Settings::InitializeDefault(void) noexcept \x7b").data) = 0 := by
      decide
    have c5 : lineCount declMarker (("\x7d").data) = 0 := by decide
    rw [c1, c2, c3, c4, c5]
    omega
  · rw [assembled_shape, lineCount_linesText _ _ (by decide),
      (lineCount_declJoin m hnl _).2, lineCount_cons_nl,
      lineCount_linesText _ _ (by decide), lineCount_append_nl,
      (lineCount_regJoin m hnl _).1]
    have c1 : bfsLines.countP (fun l => leadsWith regMarker l) = 0 := by decide
    have c2 : lineCount regMarker ([] : Text) = 0 := by decide
    have c3 : bfnLines.countP (fun l => leadsWith regMarker l) = 0 := by decide
    have c4 : lineCount regMarker
        (("void Settings::InitializeDefault(void) noexcept \x7b").data) = 0 := by
      decide
    have c5 : lineCount regMarker (("\x7d").data) = 0 := by decide
    rw [c1, c2, c3, c4, c5]
    omega

/-! ## Version stamper lemmas -/

theorem versionFull_eq (n : Int) (ts : Text) :
    versionFull n ts = versionShort n ++ ((" ").data ++ ts) := by
  simp [versionFull, versionShort, List.append_assoc]

theorem update_versioning_parsed (s : Text) (now : Text) (N : Int)
    (h : pyInt (readlineChars s) = some N) :
    update_versioning (some s) now =
      { buildNo := N + 1
        counterFile := (toString (N + 1)).data
        versionH := versionHeader (N + 1) (tsTrunc now) } := by
  simp [update_versioning, h]

theorem update_versioning_fallback (s : Text) (now : Text)
    (h : pyInt (readlineChars s) = none) :
    update_versioning (some s) now =
      { buildNo := 1
        counterFile := (toString (1 : Int)).data
        versionH := versionHeader 1 (tsTrunc now) } := by
  simp [update_versioning, h]

/-! ## Error propagation in the generator -/

theorem buildDecls_none_iff (m : List (Text × Entry)) :
    (buildDecls m).2 = none ↔
      ∀ p ∈ m, p.2.type.isSome = true ∧ p.2.value.isSome = true := by
  induction m with
  | nil => simp [buildDecls]
  | cons p m ih =>
    rcases p with ⟨k, e⟩
    rcases ht : e.type with _ | t
    · simp [buildDecls, ht]
    · rcases hv : e.value with _ | v
      · simp [buildDecls, ht, hv]
      · simp only [buildDecls, ht, hv]
        constructor
        · intro h q hq
          rcases List.mem_cons.mp hq with rfl | hq2
          · simp [ht, hv]
          · exact (ih.mp h) q hq2
        · intro h
          exact ih.mpr (fun q hq => h q (List.mem_cons_of_mem _ hq))

theorem buildRegs_none_iff (m : List (Text × Entry)) :
    (buildRegs m).2 = none ↔
      ∀ p ∈ m, p.2.type.isSome = true ∧ p.2.size.isSome = true := by
  induction m with
  | nil => simp [buildRegs]
  | cons p m ih =>
    rcases p with ⟨k, e⟩
    rcases ht : e.type with _ | t
    · simp [buildRegs, ht]
    · rcases hs : e.size with _ | sz
      · simp [buildRegs, ht, hs]
      · simp only [buildRegs, ht, hs]
        constructor
        · intro h q hq
          rcases List.mem_cons.mp hq with rfl | hq2
          · simp [ht, hs]
          · exact (ih.mp h) q hq2
        · intro h
          exact ih.mpr (fun q hq => h q (List.mem_cons_of_mem _ hq))

theorem pValueLine_spec (key typ : Text) :
    pValueLine key typ =
      ("\t\t\t.pValue = ").data ++ specAddressExpr key typ ++ (",").data := by
  cases hc : typ.contains '*'
  · simp only [pValueLine, specAddressExpr, hc, Bool.not_false, if_true,
      Bool.false_eq_true, if_false]
    simp [List.append_assoc]
  · simp only [pValueLine, specAddressExpr, hc, Bool.not_true,
      Bool.false_eq_true, if_false, if_true]
    simp [List.append_assoc]

/-! ## The claims -/

/-- C1: for every schema entry, the generated registration's address
expression is determined by the pointer marker in the entry's type text: the
emitted `.pValue` write is `(uint8_t*)&sk<name>` (address-of the storage)
when the type contains no `*`, and `(uint8_t*)sk<name>` (the storage's value
itself) when it does; moreover, on a well-formed schema the generated module
contains that `.pValue` line for every entry. -/
theorem C1_pValue_marker (key typ : Text) :
    pValueWrite key typ =
      ("\t\t\t.pValue = ").data ++ specAddressExpr key typ ++ (",").data ++ ['\n'] ∧
    ∀ (m : List (Text × Entry)) (e : Entry), (key, e) ∈ m → e.type = some typ →
      wfSchema m → noNLSchema m →
      ("\t\t\t.pValue = ").data ++ specAddressExpr key typ ++ (",").data ∈
        splitLines (GenerateDerfaultSettings (ParseOutcome.ok (YVal.mapping m))).1 := by
  constructor
  · rw [pValueWrite_split, pValueLine_spec]
  · intro m e hmem htyp hwf hnl
    have h1 : (GenerateDerfaultSettings (ParseOutcome.ok (YVal.mapping m))).1 =
        assembledModule m := by rw [generate_wf m hwf]
    rw [h1, splitLines_assembled m hnl, ← pValueLine_spec]
    have hin : pValueLine key typ ∈ regLinesOf (key, e) := by
      simp [regLinesOf, htyp]
    have hin2 : pValueLine key typ ∈ (m.map regLinesOf).flatten :=
      List.mem_flatten.mpr ⟨regLinesOf (key, e), List.mem_map_of_mem _ hmem, hin⟩
    simp only [List.mem_append, List.mem_cons]
    tauto

/-- C1 witness: the reference-typed scenario entry `name: {type: char*, ...}`
instantiates both parts of C1 (with all hypotheses discharged on the
concrete schema). -/
theorem C1_pValue_marker_witness :
    ((("name").data, nameEntry) ∈ nameSchema ∧
      nameEntry.type = some (("char*").data) ∧
      wfSchema nameSchema ∧ noNLSchema nameSchema) ∧
    ("\t\t\t.pValue = ").data ++ specAddressExpr (("name").data) (("char*").data) ++
        (",").data ∈
      splitLines
        (GenerateDerfaultSettings (ParseOutcome.ok (YVal.mapping nameSchema))).1 :=
  ⟨⟨by decide, by decide, by unfold wfSchema; decide, by unfold noNLSchema; decide⟩,
    (C1_pValue_marker (("name").data) (("char*").data)).2 nameSchema nameEntry
      (by decide) (by decide) (by unfold wfSchema; decide)
      (by unfold noNLSchema; decide)⟩

/-- C6: the emitted module text (and whether generation raised) is a
function of the parsed schema document alone — two build-script runs on the
same schema content produce byte-identical modules regardless of the clock
and of the persisted counter, the inputs that vary between runs. -/
theorem C6_module_deterministic (pr : ParseOutcome) (c1 c2 : Option Text)
    (t1 t2 : Text) :
    (buildscriptRun pr c1 t1).moduleText = (buildscriptRun pr c2 t2).moduleText ∧
      (buildscriptRun pr c1 t1).moduleErr = (buildscriptRun pr c2 t2).moduleErr :=
  ⟨rfl, rfl⟩

/-- C7: in every rendered version header, the short version string is a
strict prefix of the full version string (the full string extends it by one
space and the timestamp), for the same major, minor and build counter; the
header embeds both for the run's build number. -/
theorem C7_short_strict_prefix (n : Int) (ts : Text) (prior : Option Text)
    (now : Text) :
    (∃ rest, rest ≠ [] ∧ versionFull n ts = versionShort n ++ rest) ∧
    (update_versioning prior now).versionH =
      versionHeader (update_versioning prior now).buildNo (tsTrunc now) :=
  ⟨⟨(" ").data ++ ts, by simp, versionFull_eq n ts⟩, rfl⟩

/-- C3: one invocation of the version stamper persists exactly `N + 1` when
the counter file's first line parses as the integer `N`; persists exactly
`1` when the file is missing (`none`) or its content does not parse; and in
every case the persisted file content is the rendered new counter
(written back unconditionally). -/
theorem C3_counter_increment (s : Text) (now : Text) :
    (∀ N : Int, pyInt (readlineChars s) = some N →
      (update_versioning (some s) now).counterFile = (toString (N + 1)).data) ∧
    (pyInt (readlineChars s) = none →
      (update_versioning (some s) now).counterFile = (toString (1 : Int)).data) ∧
    (update_versioning none now).counterFile = (toString (1 : Int)).data ∧
    (∀ prior : Option Text,
      (update_versioning prior now).counterFile =
        (toString (update_versioning prior now).buildNo).data) := by
  refine ⟨?_, ?_, rfl, fun prior => rfl⟩
  · intro N h
    simp [update_versioning, h]
  · intro h
    simp [update_versioning, h]

/-- C3 witness: counter file content `41` persists `42`; content `abc` and a
missing file persist `1`. -/
theorem C3_counter_increment_witness :
    pyInt (readlineChars (("41").data)) = some 41 ∧
    (update_versioning (some (("41").data)) (("ts").data)).counterFile =
      ("42").data ∧
    pyInt (readlineChars (("abc").data)) = none ∧
    (update_versioning (some (("abc").data)) (("ts").data)).counterFile =
      ("1").data ∧
    (update_versioning none (("ts").data)).counterFile = ("1").data := by
  refine ⟨by decide, ?_, by decide, ?_, ?_⟩
  · exact ((C3_counter_increment (("41").data) (("ts").data)).1 41
      (by decide)).trans (by decide)
  · exact ((C3_counter_increment (("abc").data) (("ts").data)).2.1
      (by decide)).trans (by decide)
  · exact (C3_counter_increment (("x").data) (("ts").data)).2.2.1.trans (by decide)

/-- C10: the version stamper enforces no non-negativity: whenever the first
line of the counter file parses as an integer `N`, even a negative one, the
persisted result is exactly `N + 1` and (for negative `N`) is not the
fallback value `1`. -/
theorem C10_negative_counter (s : Text) (now : Text) (N : Int)
    (h : pyInt (readlineChars s) = some N) (hneg : N < 0) :
    (update_versioning (some s) now).counterFile = (toString (N + 1)).data ∧
    (update_versioning (some s) now).buildNo = N + 1 ∧ N + 1 ≠ 1 := by
  refine ⟨?_, ?_, by omega⟩ <;> simp [update_versioning, h]

/-- C10 witness: a counter file containing `-5` persists `-4`. -/
theorem C10_negative_counter_witness :
    pyInt (readlineChars (("-5").data)) = some (-5) ∧ (-5 : Int) < 0 ∧
    (update_versioning (some (("-5").data)) (("ts").data)).counterFile =
      ("-4").data := by
  refine ⟨by decide, by decide, ?_⟩
  exact (C10_negative_counter (("-5").data) (("ts").data) (-5) (by decide)
    (by decide)).1.trans (by decide)

/-- C2 (the code, contradicting the claim): on a malformed schema document
(`yaml.YAMLError`), the settings compiler catches the error, prints it, and
continues with an empty settings set — the run completes without an escaping
error and the output module is the complete framing with zero declaration
lines and zero registration lines (the same text as for an empty schema). -/
theorem C2_yamlError_swallowed :
    GenerateDerfaultSettings ParseOutcome.yamlError =
      (assembledModule [], none) ∧
    lineCount declMarker (assembledModule ([] : List (Text × Entry))) = 0 ∧
    lineCount regMarker (assembledModule ([] : List (Text × Entry))) = 0 := by
  refine ⟨?_, (lineCount_assembled [] (by unfold noNLSchema; decide)).1,
    (lineCount_assembled [] (by unfold noNLSchema; decide)).2⟩
  simp [GenerateDerfaultSettings, BuildSettings, BuildFileInit, buildRegs,
    buildDecls, assembledModule, List.append_assoc]

/-- C9: when the schema document parses to a non-mapping value (`null` for
an empty document, or any other non-mapping), `loaded.items()` raises and
the exception escapes (only YAML syntax errors are caught); at that point
exactly the fixed banner has been written to the output module, which
contains no declaration and no registration lines. -/
theorem C9_nonmapping_raises :
    GenerateDerfaultSettings (ParseOutcome.ok YVal.null) =
      (BuildFileStart, some PyErr.attributeError) ∧
    GenerateDerfaultSettings (ParseOutcome.ok YVal.other) =
      (BuildFileStart, some PyErr.attributeError) ∧
    lineCount declMarker BuildFileStart = 0 ∧
    lineCount regMarker BuildFileStart = 0 := by
  refine ⟨by simp [GenerateDerfaultSettings, BuildSettings],
    by simp [GenerateDerfaultSettings, BuildSettings], ?_, ?_⟩
  · rw [show BuildFileStart = linesText bfsLines [] from rfl,
      lineCount_linesText _ _ (by decide)]
    have c1 : bfsLines.countP (fun l => leadsWith declMarker l) = 0 := by decide
    have c2 : lineCount declMarker ([] : Text) = 0 := by decide
    rw [c1, c2]
  · rw [show BuildFileStart = linesText bfsLines [] from rfl,
      lineCount_linesText _ _ (by decide)]
    have c1 : bfsLines.countP (fun l => leadsWith regMarker l) = 0 := by decide
    have c2 : lineCount regMarker ([] : Text) = 0 := by decide
    rw [c1, c2]

/-- C5: on every well-formed schema (each entry supplying type, value and
size; scalars newline-free), generation completes without error, the module
is the fixed framing with exactly one declaration write and one registration
write per entry, and the module's line counts of declarations and of
registrations both equal the number of schema entries. -/
theorem C5_one_per_entry (m : List (Text × Entry)) (hwf : wfSchema m)
    (hnl : noNLSchema m) :
    GenerateDerfaultSettings (ParseOutcome.ok (YVal.mapping m)) =
      (assembledModule m, none) ∧
    (m.map declWrite).length = m.length ∧
    (m.map regWrite).length = m.length ∧
    lineCount declMarker (assembledModule m) = m.length ∧
    lineCount regMarker (assembledModule m) = m.length :=
  ⟨generate_wf m hwf, by simp, by simp,
    (lineCount_assembled m hnl).1, (lineCount_assembled m hnl).2⟩

/-- C5 witness: the one-entry scenario schema yields exactly one declaration
line and one registration line. -/
theorem C5_one_per_entry_witness :
    wfSchema tempSchema ∧ noNLSchema tempSchema ∧
    lineCount declMarker (assembledModule tempSchema) = 1 ∧
    lineCount regMarker (assembledModule tempSchema) = 1 := by
  refine ⟨by unfold wfSchema; decide, by unfold noNLSchema; decide, ?_, ?_⟩
  · exact ((C5_one_per_entry tempSchema (by unfold wfSchema; decide)
      (by unfold noNLSchema; decide)).2.2.2.1).trans (by decide)
  · exact ((C5_one_per_entry tempSchema (by unfold wfSchema; decide)
      (by unfold noNLSchema; decide)).2.2.2.2).trans (by decide)

/-- C8: a schema entry lacking `type`, `value` or `size` makes generation
fail with an error raised at the point the missing field is accessed,
instead of completing. -/
theorem C8_missing_field (m : List (Text × Entry)) (k : Text) (e : Entry)
    (hmem : (k, e) ∈ m)
    (hmiss : e.type = none ∨ e.value = none ∨ e.size = none) :
    ∃ err,
      (GenerateDerfaultSettings (ParseOutcome.ok (YVal.mapping m))).2 = some err := by
  rcases hd : (buildDecls m).2 with _ | err
  · have hall := (buildDecls_none_iff m).mp hd
    have h1 : e.type.isSome = true := (hall (k, e) hmem).1
    have h2 : e.value.isSome = true := (hall (k, e) hmem).2
    rcases hmiss with h | h | h
    · rw [h] at h1; simp at h1
    · rw [h] at h2; simp at h2
    · rcases hr : (buildRegs m).2 with _ | err2
      · have h3 : e.size.isSome = true := ((buildRegs_none_iff m).mp hr (k, e) hmem).2
        rw [h] at h3; simp at h3
      · exact ⟨err2, by
          simp [GenerateDerfaultSettings, BuildSettings, hd, BuildFileInit, hr]⟩
  · exact ⟨err, by simp [GenerateDerfaultSettings, BuildSettings, hd]⟩

/-- C8 witness: an entry lacking `size` makes the run end in an error. -/
theorem C8_missing_field_witness :
    ((("a").data, noSizeEntry) ∈ noSizeSchema) ∧
    (noSizeEntry.type = none ∨ noSizeEntry.value = none ∨
      noSizeEntry.size = none) ∧
    ∃ err,
      (GenerateDerfaultSettings
        (ParseOutcome.ok (YVal.mapping noSizeSchema))).2 = some err :=
  ⟨by decide, by decide,
    C8_missing_field noSizeSchema (("a").data) noSizeEntry (by decide) (by decide)⟩

/-- C4 counterexample: for the scenario schema `{temp: ...}` the claimed
storage name `skTemp` never occurs — no line of the generated module
contains the substring `skTemp` (the code derives `sktemp`, prefixing the
key verbatim), so neither the claimed declaration
`static const float skTemp = 21.5;` nor the claimed address `&skTemp`
appears anywhere in the module. -/
theorem C4_counterexample :
    (splitLines
        (GenerateDerfaultSettings
          (ParseOutcome.ok (YVal.mapping tempSchema))).1).countP
      (fun l => containsSub (("skTemp").data) l) = 0 := by
  have h1 : (GenerateDerfaultSettings (ParseOutcome.ok (YVal.mapping tempSchema))).1 =
      assembledModule tempSchema := by
    rw [generate_wf tempSchema (by unfold wfSchema; decide)]
  rw [h1, splitLines_assembled tempSchema (by unfold noNLSchema; decide)]
  decide

/-- C4 as amended: for the schema `{temp: {type: float, value: 21.5, size:
sizeof(float)}}` the generated module contains the declaration line
`static const float sktemp = 21.5;` and a registration for `SETTING_TEMP`
whose address expression is `(uint8_t*)&sktemp` and whose size expression is
`sizeof(float)`. -/
theorem C4_amended_scenario :
    ("static const float sktemp = 21.5;").data ∈
      splitLines
        (GenerateDerfaultSettings (ParseOutcome.ok (YVal.mapping tempSchema))).1 ∧
    ("\t\tSETTING_TEMP,").data ∈
      splitLines
        (GenerateDerfaultSettings (ParseOutcome.ok (YVal.mapping tempSchema))).1 ∧
    ("\t\t\t.pValue = (uint8_t*)&sktemp,").data ∈
      splitLines
        (GenerateDerfaultSettings (ParseOutcome.ok (YVal.mapping tempSchema))).1 ∧
    ("\t\t\t.fieldSize = sizeof(float)").data ∈
      splitLines
        (GenerateDerfaultSettings (ParseOutcome.ok (YVal.mapping tempSchema))).1 := by
  have h1 : (GenerateDerfaultSettings (ParseOutcome.ok (YVal.mapping tempSchema))).1 =
      assembledModule tempSchema := by
    rw [generate_wf tempSchema (by unfold wfSchema; decide)]
  rw [h1, splitLines_assembled tempSchema (by unfold noNLSchema; decide)]
  exact ⟨by decide, by decide, by decide, by decide⟩
